import Mathlib

/-!
Verification development for the iTunes XML playlist extractor
(`src/main.go`).  The Go program consists of a hand-rolled XML value
decoder (`Dict.UnmarshalXML`), an extraction pass in `main` that turns
the decoded value tree into `Playlist` records, and CSV/table writers.
We embed the decoder as a fuel-indexed function over a token stream,
the extraction pass as an `Except`-valued function (Go panics become
errors), and the CSV writer as a pure string function.
-/

namespace ITunes

/-- An XML token, mirroring the `xml.Token` values the Go decoder
consumes: start elements, character data, and end elements.  Names are
the `Name.Local` strings the Go code compares against. -/
inductive Token where
  | startTag (name : String)
  | charData (s : String)
  | endTag (name : String)
deriving DecidableEq, Repr

/-- A decoded plist value, mirroring the dynamic `interface{}` values the
Go decoder stores: `string`, `int`, `Dict` (whose `KVs` map we represent
as an association list of entries) and `Array` (whose `Dicts` field is a
list of dict entry lists). -/
inductive Value where
  | str (s : String)
  | int (n : Int)
  | dict (kvs : List (String × Value))
  | arr (dicts : List (List (String × Value)))

/-- Assignment `kvs[key] = v` on the Go map: overwrite the entry for
`key` if present, otherwise add a new one. -/
def mapInsert (k : String) (v : Value) : List (String × Value) → List (String × Value)
  | [] => [(k, v)]
  | (k', v') :: rest => if k' = k then (k, v) :: rest else (k', v') :: mapInsert k v rest

/-- Lookup `kvs[key]` on the Go map: `none` models the nil interface a
missing key yields. -/
def mapLookup (k : String) : List (String × Value) → Option Value
  | [] => none
  | (k', v') :: rest => if k' = k then some v' else mapLookup k rest

/-- Decoding errors.  The Go code surfaces these as non-nil `error`
values from `Token`/`DecodeElement`; we carry a message string. -/
inductive DErr where
  | truncated
  | outOfFuel
  | malformed
  | badInt
deriving DecidableEq, Repr

/-- Semantics of `d.DecodeElement(&v, &ty)` for a `string` target: the
element's character data is accumulated, nested elements are skipped
(depth-tracked), and the matching end tag is consumed.  Returns the text
and the remaining tokens. -/
def decodeText (endName : String) (depth : Nat) (acc : String) :
    List Token → Except DErr (String × List Token)
  | [] => .error .truncated
  | Token.charData s :: ts =>
      if depth = 0 then decodeText endName depth (acc ++ s) ts
      else decodeText endName depth acc ts
  | Token.startTag _ :: ts => decodeText endName (depth + 1) acc ts
  | Token.endTag n :: ts =>
      match depth with
      | 0 => if n = endName then .ok (acc, ts) else .error .malformed
      | d + 1 => decodeText endName d acc ts

/-- Consume an element's remaining tokens through its matching end tag,
discarding them; models `encoding/xml` skipping an unmatched child
element during generic unmarshalling (used by the `Array` decoder). -/
def skipTokens (depth : Nat) : List Token → Except DErr (List Token)
  | [] => .error .truncated
  | Token.charData _ :: ts => skipTokens depth ts
  | Token.startTag _ :: ts => skipTokens (depth + 1) ts
  | Token.endTag _ :: ts =>
      match depth with
      | 0 => .ok ts
      | d + 1 => skipTokens d ts

mutual

/-- The token loop of `Dict.UnmarshalXML` (src/main.go lines 40-99).
State: `startN` is `start.Name.Local`, `key` the pending-key variable
(`var key string`, zero value `""`), `kvs` the accumulated map.  Each
iteration reads one token: an end tag matching `startN` finishes; a
`key`/`integer`/`string`/`dict`/`array` start tag decodes that element
and stores under `key` (which is never cleared); any other start tag
falls through the `if` chain and is ignored without consuming its
subtree.  `fuel` bounds the recursion; every Go execution that
terminates is reproduced with enough fuel. -/
def decodeDictLoop (startN key : String) (kvs : List (String × Value)) :
    Nat → List Token → Except DErr (List (String × Value) × List Token)
  | _, [] => .error .truncated
  | 0, _ :: _ => .error .outOfFuel
  | fuel + 1, Token.charData _ :: ts => decodeDictLoop startN key kvs fuel ts
  | fuel + 1, Token.endTag n :: ts =>
      if n = startN then .ok (kvs, ts) else decodeDictLoop startN key kvs fuel ts
  | fuel + 1, Token.startTag n :: ts =>
      if n = "key" then
        match decodeText "key" 0 "" ts with
        | .error e => .error e
        | .ok (k, ts') => decodeDictLoop startN k kvs fuel ts'
      else if n = "integer" then
        match decodeText "integer" 0 "" ts with
        | .error e => .error e
        | .ok (s, ts') =>
            match s.toInt? with
            | none => .error .badInt
            | some v => decodeDictLoop startN key (mapInsert key (Value.int v) kvs) fuel ts'
      else if n = "string" then
        match decodeText "string" 0 "" ts with
        | .error e => .error e
        | .ok (v, ts') => decodeDictLoop startN key (mapInsert key (Value.str v) kvs) fuel ts'
      else if n = "dict" then
        match decodeDictLoop "dict" "" [] fuel ts with
        | .error e => .error e
        | .ok (d, ts') => decodeDictLoop startN key (mapInsert key (Value.dict d) kvs) fuel ts'
      else if n = "array" then
        match decodeArrayLoop [] fuel ts with
        | .error e => .error e
        | .ok (a, ts') => decodeDictLoop startN key (mapInsert key (Value.arr a) kvs) fuel ts'
      else
        decodeDictLoop startN key kvs fuel ts

/-- Generic unmarshalling of the `Array` struct (`Dicts []Dict` with tag
`xml:"dict"`): child `dict` elements are decoded via `Dict.UnmarshalXML`
and appended; other child elements are skipped whole; the array's own
end tag finishes. -/
def decodeArrayLoop (acc : List (List (String × Value))) :
    Nat → List Token → Except DErr (List (List (String × Value)) × List Token)
  | _, [] => .error .truncated
  | 0, _ :: _ => .error .outOfFuel
  | fuel + 1, Token.charData _ :: ts => decodeArrayLoop acc fuel ts
  | _ + 1, Token.endTag n :: ts =>
      if n = "array" then .ok (acc.reverse, ts) else .error .malformed
  | fuel + 1, Token.startTag n :: ts =>
      if n = "dict" then
        match decodeDictLoop "dict" "" [] fuel ts with
        | .error e => .error e
        | .ok (d, ts') => decodeArrayLoop (d :: acc) fuel ts'
      else
        match skipTokens 0 ts with
        | .error e => .error e
        | .ok ts' => decodeArrayLoop acc fuel ts'

end

/-- Decode the body of a `<dict>` element: `Dict.UnmarshalXML` invoked
with `start.Name.Local = "dict"`, fresh map and zero-valued pending key,
given the tokens following the start tag.  Fuel `ts.length + 1` is
enough for every terminating run, since each iteration consumes at
least one token. -/
def decodeDictTop (ts : List Token) : Except DErr (List (String × Value) × List Token) :=
  decodeDictLoop "dict" "" [] (ts.length + 1) ts

/-- The `Track` record of the Go program. -/
structure Track where
  Artist : String
  Album : String
  Name : String
deriving DecidableEq, Repr

/-- The `Playlist` record of the Go program. -/
structure Playlist where
  Name : String
  Tracks : List Track
deriving DecidableEq, Repr

/-- `StringOrDefault` (src/main.go lines 222-228): the type assertion
`val.(string)` succeeds exactly on a string value; `none` models the nil
interface obtained from a missing map key. -/
def StringOrDefault (val : Option Value) (alt : String) : String :=
  match val with
  | some (Value.str s) => s
  | _ => alt

/-- A Go runtime panic, carrying the runtime error message.  The
extraction pass in `main` uses unchecked type assertions and unchecked
slicing, each of which panics (aborting the run) on the wrong shape. -/
abbrev GoPanic := String

/-- The unchecked assertion `v.(Dict)` on a value read from a map
(`none` is the nil interface of a missing key): panics unless the value
is a `Dict`. -/
def assertDict (val : Option Value) : Except GoPanic (List (String × Value)) :=
  match val with
  | some (Value.dict d) => .ok d
  | _ => .error "interface conversion: interface is not main.Dict"

/-- The unchecked assertion `v.(Array)`: panics unless the value is an
`Array`. -/
def assertArray (val : Option Value) : Except GoPanic (List (List (String × Value))) :=
  match val with
  | some (Value.arr a) => .ok a
  | _ => .error "interface conversion: interface is not main.Array"

/-- The unchecked assertion `v.(int)`: panics unless the value is an
integer. -/
def assertInt (val : Option Value) : Except GoPanic Int :=
  match val with
  | some (Value.int n) => .ok n
  | _ => .error "interface conversion: interface is not int"

/-- The Go slice expression `s[5:]` generalised: `xs.drop n` when
`n ≤ len(xs)`, otherwise a slice-bounds runtime panic (src/main.go line
267 performs `rawPlaylists.Dicts[5:]` unguarded). -/
def goSliceFrom (n : Nat) (xs : List α) : Except GoPanic (List α) :=
  if n ≤ xs.length then .ok (xs.drop n) else .error "runtime error: slice bounds out of range"

/-- Body of the track loop in `main` (lines 250-256): build a `Track`
from a track dict with `StringOrDefault` fallbacks. -/
def mkTrack (td : List (String × Value)) : Track :=
  { Artist := StringOrDefault (mapLookup "Artist" td) "Unknown Artist"
    Album := StringOrDefault (mapLookup "Album" td) "Unknown Album"
    Name := StringOrDefault (mapLookup "Name" td) "Unknown Name" }

/-- The track-catalog loop of `main` (lines 249-257): each entry of the
`Tracks` dict is asserted to be a `Dict` (panic otherwise) and turned
into a `Track` keyed by its track-ID string. -/
def extractTracks : List (String × Value) → Except GoPanic (List (String × Track))
  | [] => .ok []
  | (tid, tv) :: rest => do
      let td ← assertDict (some tv)
      let rest' ← extractTracks rest
      .ok ((tid, mkTrack td) :: rest')

/-- Lookup in the `tracks` map built by `main`; a missing key yields the
zero-valued `Track` (all fields the empty string), as Go map indexing
does. -/
def trackFor (tracks : List (String × Track)) (tid : String) : Track :=
  match tracks.find? (fun p => p.1 = tid) with
  | some p => p.2
  | none => { Artist := "", Album := "", Name := "" }

/-- The playlist-name expression of `main` (line 269). -/
def playlistName (d : List (String × Value)) : String :=
  StringOrDefault (mapLookup "Name" d) "Unknown Playlist"

/-- The inner item loop of `main` (lines 275-279): each item's
`Track ID` is asserted to be an `int` (panic otherwise), converted with
`strconv.Itoa`, and resolved against the track map. -/
def extractItems (tracks : List (String × Track)) :
    List (List (String × Value)) → Except GoPanic (List Track)
  | [] => .ok []
  | t :: rest => do
      let trackID ← assertInt (mapLookup "Track ID" t)
      let rest' ← extractItems tracks rest
      .ok (trackFor tracks (toString trackID) :: rest')

/-- The playlist loop of `main` (lines 267-281) over the candidate dicts
(those remaining after the slice).  A dict whose `Playlist Items` is
absent or not an `Array` is skipped via `continue` after `PrintMsg`
(we collect the message in the returned diagnostics list); otherwise its
items are resolved and the playlist appended. -/
def processPlaylists (tracks : List (String × Track)) :
    List (List (String × Value)) → Except GoPanic (List Playlist × List String)
  | [] => .ok ([], [])
  | d :: rest =>
      match mapLookup "Playlist Items" d with
      | some (Value.arr items) => do
          let tks ← extractItems tracks items
          let (ps, msgs) ← processPlaylists tracks rest
          .ok ({ Name := playlistName d, Tracks := tks } :: ps, msgs)
      | _ => do
          let (ps, msgs) ← processPlaylists tracks rest
          .ok (ps, ("Error: Playlist " ++ playlistName d ++ " has no tracks") :: msgs)

/-- The extraction pass of `main` (lines 248-281), from the decoded
top-level dict `i.D.KVs` to the playlist list and the diagnostics
emitted for skipped playlists.  An `.error` is a Go panic aborting the
run. -/
def extractLib (kvs : List (String × Value)) : Except GoPanic (List Playlist × List String) := do
  let rawTracks ← assertDict (mapLookup "Tracks" kvs)
  let tracks ← extractTracks rawTracks
  let rawPlaylists ← assertArray (mapLookup "Playlists" kvs)
  let candidates ← goSliceFrom 5 rawPlaylists
  processPlaylists tracks candidates

/-- `Playlists.WriteCSV` (src/main.go lines 122-136) as the string it
writes: a fixed header row, then one `name,artist,album,track` line per
track of each playlist. -/
def writeCSV (ps : List Playlist) : String :=
  "Playlist Name, Artist, Album, Track\n" ++
    String.join (ps.map (fun p =>
      String.join (p.Tracks.map (fun t =>
        p.Name ++ "," ++ t.Artist ++ "," ++ t.Album ++ "," ++ t.Name ++ "\n"))))

/-- The decode-then-extract pipeline: `xml.Unmarshal` runs
`Dict.UnmarshalXML` on the top-level dict and `main` aborts on its
error (lines 242-245); otherwise extraction runs on the decoded map. -/
def runFromTokens (ts : List Token) : Except GoPanic (List Playlist × List String) :=
  match decodeDictTop ts with
  | .error _ => .error "Failed to parse iTunes library file"
  | .ok (kvs, _) => extractLib kvs

/-- The iteration orders a `range` loop over a Go map may observe: Go
deliberately leaves map iteration order unspecified, so any permutation
of the entries is a possible iteration. -/
def dictIterations (kvs : List (String × Value)) : List (List (String × Value)) :=
  kvs.permutations

/-- C1 counterexample: the claim says a stored value clears the pending
key, so of two value elements following one key element only the first
is stored, and a value before any key adds no entry.  On the code,
`key` is never cleared: after `<key>k</key><string>v1</string>
<string>v2</string>` the map holds `v2` (the second value overwrote the
first), and `<string>v</string>` before any key stores an entry under
the zero-valued key `""` rather than adding nothing. -/
theorem C1_counterexample :
    decodeDictTop [Token.startTag "key", Token.charData "k", Token.endTag "key",
        Token.startTag "string", Token.charData "v1", Token.endTag "string",
        Token.startTag "string", Token.charData "v2", Token.endTag "string",
        Token.endTag "dict"] =
      Except.ok ([("k", Value.str "v2")], []) ∧
    "v2" ≠ "v1" ∧
    decodeDictTop [Token.startTag "string", Token.charData "v", Token.endTag "string",
        Token.endTag "dict"] =
      Except.ok ([("", Value.str "v")], []) ∧
    [("", Value.str "v")] ≠ ([] : List (String × Value)) :=
  ⟨rfl, by decide, rfl, by simp⟩

/-- C1 amended: when a `string` (or `integer`) value element is read the
pair is stored under the current pending key without crashing, but the
pending key is not cleared and is the empty string when no key element
has been read.  Hence two value elements after a single key element
leave the second value stored under that key (it overwrites the first),
and a value element preceding any key element stores an entry under the
empty-string key. -/
theorem C1_amended (k v1 v2 v : String) :
    decodeDictTop [Token.startTag "key", Token.charData k, Token.endTag "key",
        Token.startTag "string", Token.charData v1, Token.endTag "string",
        Token.startTag "string", Token.charData v2, Token.endTag "string",
        Token.endTag "dict"] =
      Except.ok ([(k, Value.str v2)], []) ∧
    decodeDictTop [Token.startTag "string", Token.charData v, Token.endTag "string",
        Token.endTag "dict"] =
      Except.ok ([("", Value.str v)], []) := by
  constructor
  · simp [decodeDictTop, decodeDictLoop, decodeText, mapInsert]
  · simp [decodeDictTop, decodeDictLoop, decodeText, mapInsert]

/-- C2 counterexample: the claim says an unrecognized start tag's whole
subtree is consumed and discarded, so no pair enclosed in it reaches the
mapping.  On the code, the unrecognized `<foo>` start tag merely falls
through the `if` chain: the `<key>`/`<string>` elements inside it are
processed as part of the current dict and the pair `("a", "v")` is
stored. -/
theorem C2_counterexample :
    decodeDictTop [Token.startTag "foo",
        Token.startTag "key", Token.charData "a", Token.endTag "key",
        Token.startTag "string", Token.charData "v", Token.endTag "string",
        Token.endTag "foo", Token.endTag "dict"] =
      Except.ok ([("a", Value.str "v")], []) ∧
    mapLookup "a" [("a", Value.str "v")] = some (Value.str "v") :=
  ⟨rfl, rfl⟩

/-- C2 amended: a start tag whose name is not one of
key/string/integer/dict/array is ignored without consuming its subtree:
the decoder state is unchanged and decoding continues with the
immediately following tokens, still at the current dict's level, so
recognized elements enclosed in the unrecognized element are processed
(and stored) as if they were direct children of the dict. -/
theorem C2_amended (n : String)
    (h : n ∉ ["key", "integer", "string", "dict", "array"])
    (startN key : String) (kvs : List (String × Value)) (fuel : Nat) (ts : List Token) :
    decodeDictLoop startN key kvs (fuel + 1) (Token.startTag n :: ts) =
      decodeDictLoop startN key kvs fuel ts := by
  have h1 : ¬(n = "key") := fun e => h (by simp [e])
  have h2 : ¬(n = "integer") := fun e => h (by simp [e])
  have h3 : ¬(n = "string") := fun e => h (by simp [e])
  have h4 : ¬(n = "dict") := fun e => h (by simp [e])
  have h5 : ¬(n = "array") := fun e => h (by simp [e])
  simp [decodeDictLoop, h1, h2, h3, h4, h5]

/-- C2 witness: instantiating the amended theorem at the unrecognized
tag name `foo` on a concrete stream. -/
theorem C2_witness :
    decodeDictLoop "dict" "" [] 3 (Token.startTag "foo" :: [Token.endTag "dict"]) =
      decodeDictLoop "dict" "" [] 2 [Token.endTag "dict"] :=
  C2_amended "foo" (by decide) "dict" "" [] 2 [Token.endTag "dict"]

/-- C3: extraction considers exactly the playlist dicts from index 5
onward, in original order.  With a Playlists array of 7 dicts whose
first five are arbitrary and whose last two are well-formed playlists
named `P5` and `P6`, the output is exactly those two playlists in
original order, independently of the first five entries. -/
theorem C3_skip_first_five (d0 d1 d2 d3 d4 : List (String × Value)) :
    extractLib [("Tracks", Value.dict []),
      ("Playlists", Value.arr [d0, d1, d2, d3, d4,
        [("Name", Value.str "P5"), ("Playlist Items", Value.arr [])],
        [("Name", Value.str "P6"), ("Playlist Items", Value.arr [])]])] =
      Except.ok ([{ Name := "P5", Tracks := [] }, { Name := "P6", Tracks := [] }], []) :=
  rfl

/-- C4: evaluating the code at the failing input.  A playlist item with
`Track ID` 99 and no entry `"99"` in the track lookup does not crash,
but `tracks[strconv.Itoa(trackID)]` yields the zero-valued `Track` and
the code appends that fully-blank track (all fields `""`) to the
playlist — contradicting the claim's repaired policy. -/
theorem C4_blank_track :
    extractLib [("Tracks", Value.dict []),
      ("Playlists", Value.arr [[], [], [], [], [],
        [("Name", Value.str "My Playlist"),
         ("Playlist Items", Value.arr [[("Track ID", Value.int 99)]])]])] =
      Except.ok ([{ Name := "My Playlist",
                    Tracks := [{ Artist := "", Album := "", Name := "" }] }], []) :=
  rfl

/-- C8: the end-to-end scenario.  With the Tracks dict mapping `"1"` to
the Sandstorm track and a 6-entry Playlists array whose first five
entries are arbitrary and whose entry 5 is `My Playlist` with one item
of `Track ID` 1, extraction yields exactly one playlist with exactly
that track, and `WriteCSV` renders exactly the claimed string. -/
theorem C8_end_to_end (d0 d1 d2 d3 d4 : List (String × Value)) :
    extractLib [("Tracks", Value.dict [("1", Value.dict [("Name", Value.str "Sandstorm"),
        ("Artist", Value.str "Darude"), ("Album", Value.str "Before The Storm")])]),
      ("Playlists", Value.arr [d0, d1, d2, d3, d4,
        [("Name", Value.str "My Playlist"),
         ("Playlist Items", Value.arr [[("Track ID", Value.int 1)]])]])] =
      Except.ok ([{ Name := "My Playlist",
                    Tracks := [{ Artist := "Darude", Album := "Before The Storm",
                                 Name := "Sandstorm" }] }], []) ∧
    writeCSV [{ Name := "My Playlist",
                Tracks := [{ Artist := "Darude", Album := "Before The Storm",
                             Name := "Sandstorm" }] }] =
      "Playlist Name, Artist, Album, Track\nMy Playlist,Darude,Before The Storm,Sandstorm\n" :=
  ⟨rfl, rfl⟩

/-- C5: a candidate playlist dict whose `Playlist Items` key is absent
or whose value is not an `Array` contributes no playlist: the result on
`d :: rest` equals the result on `rest` with only the diagnostic message
for `d` prepended to the diagnostics, so the remaining playlists are
still processed and the skip itself never aborts the run. -/
theorem C5_skip_malformed (tracks : List (String × Track))
    (d : List (String × Value)) (rest : List (List (String × Value)))
    (h : ∀ items, mapLookup "Playlist Items" d ≠ some (Value.arr items)) :
    processPlaylists tracks (d :: rest) =
      Except.map (fun pm => (pm.1, ("Error: Playlist " ++ playlistName d ++ " has no tracks") :: pm.2))
        (processPlaylists tracks rest) := by
  cases hm : mapLookup "Playlist Items" d with
  | none =>
      simp only [processPlaylists, hm]
      cases processPlaylists tracks rest with
      | error e => rfl
      | ok pm => rfl
  | some v =>
      cases v with
      | arr items => exact absurd hm (h items)
      | str s =>
          simp only [processPlaylists, hm]
          cases processPlaylists tracks rest with
          | error e => rfl
          | ok pm => rfl
      | int n =>
          simp only [processPlaylists, hm]
          cases processPlaylists tracks rest with
          | error e => rfl
          | ok pm => rfl
      | dict kvs =>
          simp only [processPlaylists, hm]
          cases processPlaylists tracks rest with
          | error e => rfl
          | ok pm => rfl

/-- C5 witness: a concrete playlist dict with no `Playlist Items` key is
skipped with the diagnostic. -/
theorem C5_witness :
    processPlaylists [] [[("Name", Value.str "P")]] =
      Except.map (fun pm => (pm.1,
          ("Error: Playlist " ++ playlistName [("Name", Value.str "P")] ++ " has no tracks") :: pm.2))
        (processPlaylists [] []) :=
  C5_skip_malformed [] [("Name", Value.str "P")] []
    (fun items hx => by simp [mapLookup] at hx)

/-- Helper: `StringOrDefault` returns the string when the value is a
string. -/
theorem StringOrDefault_of_str (v : Option Value) (alt s : String)
    (h : v = some (Value.str s)) : StringOrDefault v alt = s := by
  subst h; rfl

/-- Helper: `StringOrDefault` returns the fallback when the value is
absent or not a string. -/
theorem StringOrDefault_of_not_str (v : Option Value) (alt : String)
    (h : ∀ s, v ≠ some (Value.str s)) : StringOrDefault v alt = alt := by
  cases v with
  | none => rfl
  | some val =>
      cases val with
      | str s => exact absurd rfl (h s)
      | int n => rfl
      | dict kvs => rfl
      | arr ds => rfl

/-- C6: for a track dict, the extracted `Artist` equals the dict's
`Artist` value when that value is a string and is `"Unknown Artist"`
when the key is absent or its value is not a string; analogously for
`Album`, `Name`, and a playlist dict's `Name`. -/
theorem C6_defaults (td d : List (String × Value)) :
    ((∀ s, mapLookup "Artist" td = some (Value.str s) → (mkTrack td).Artist = s) ∧
      ((∀ s, mapLookup "Artist" td ≠ some (Value.str s)) → (mkTrack td).Artist = "Unknown Artist")) ∧
    ((∀ s, mapLookup "Album" td = some (Value.str s) → (mkTrack td).Album = s) ∧
      ((∀ s, mapLookup "Album" td ≠ some (Value.str s)) → (mkTrack td).Album = "Unknown Album")) ∧
    ((∀ s, mapLookup "Name" td = some (Value.str s) → (mkTrack td).Name = s) ∧
      ((∀ s, mapLookup "Name" td ≠ some (Value.str s)) → (mkTrack td).Name = "Unknown Name")) ∧
    ((∀ s, mapLookup "Name" d = some (Value.str s) → playlistName d = s) ∧
      ((∀ s, mapLookup "Name" d ≠ some (Value.str s)) → playlistName d = "Unknown Playlist")) :=
  ⟨⟨fun s hs => StringOrDefault_of_str _ _ s hs,
    fun hne => StringOrDefault_of_not_str _ _ hne⟩,
   ⟨fun s hs => StringOrDefault_of_str _ _ s hs,
    fun hne => StringOrDefault_of_not_str _ _ hne⟩,
   ⟨fun s hs => StringOrDefault_of_str _ _ s hs,
    fun hne => StringOrDefault_of_not_str _ _ hne⟩,
   ⟨fun s hs => StringOrDefault_of_str _ _ s hs,
    fun hne => StringOrDefault_of_not_str _ _ hne⟩⟩

/-- C6 witness: the defaults at concrete dicts — a dict carrying
`Artist` as a string keeps it, and the empty dict falls back to every
placeholder. -/
theorem C6_witness :
    (mkTrack [("Artist", Value.str "Darude")]).Artist = "Darude" ∧
    (mkTrack []).Artist = "Unknown Artist" ∧
    (mkTrack []).Album = "Unknown Album" ∧
    (mkTrack []).Name = "Unknown Name" ∧
    playlistName [] = "Unknown Playlist" :=
  ⟨(C6_defaults [("Artist", Value.str "Darude")] []).1.1 "Darude" rfl,
   (C6_defaults [] []).1.2 (fun s h => by simp [mapLookup] at h),
   (C6_defaults [] []).2.1.2 (fun s h => by simp [mapLookup] at h),
   (C6_defaults [] []).2.2.1.2 (fun s h => by simp [mapLookup] at h),
   (C6_defaults [] []).2.2.2.2 (fun s h => by simp [mapLookup] at h)⟩

/-- A two-entry document whose keys appear in source order `b`, `a`. -/
def twoKeyDoc : List Token :=
  [Token.startTag "key", Token.charData "b", Token.endTag "key",
   Token.startTag "string", Token.charData "1", Token.endTag "string",
   Token.startTag "key", Token.charData "a", Token.endTag "key",
   Token.startTag "string", Token.charData "2", Token.endTag "string",
   Token.endTag "dict"]

/-- C9 counterexample: the claim says iterating a decoded dict's mapping
yields the pairs in source order.  The decoder stores the pairs in a Go
map, whose `range` iteration order is unspecified: for the document with
keys in source order `b`, `a`, the iteration `a`, `b` is among the
possible iterations and its key order differs from source order. -/
theorem C9_counterexample :
    decodeDictTop twoKeyDoc =
      Except.ok ([("b", Value.str "1"), ("a", Value.str "2")], []) ∧
    [("a", Value.str "2"), ("b", Value.str "1")] ∈
      dictIterations [("b", Value.str "1"), ("a", Value.str "2")] ∧
    List.map Prod.fst [("a", Value.str "2"), ("b", Value.str "1")] ≠
      List.map Prod.fst [("b", Value.str "1"), ("a", Value.str "2")] :=
  ⟨rfl, List.mem_permutations.mpr (List.Perm.swap _ _ _), by decide⟩

/-- C9 amended: the decoder is a pure function, so two decodes of the
same document yield the same mapping contents, and every possible Go map
iteration of a decoded dict is a permutation of its entries — the same
key/value pairs every time — but the iteration order itself is
unspecified and need not follow source order. -/
theorem C9_iteration_perm (ts : List Token) (kvs : List (String × Value))
    (rest : List Token) (_h : decodeDictTop ts = Except.ok (kvs, rest))
    (l : List (String × Value)) (hl : l ∈ dictIterations kvs) : l.Perm kvs :=
  List.mem_permutations.mp hl

/-- C9 witness: a possible iteration of the decoded two-key document is
a permutation of its entries. -/
theorem C9_witness :
    List.Perm [("a", Value.str "2"), ("b", Value.str "1")]
      [("b", Value.str "1"), ("a", Value.str "2")] :=
  C9_iteration_perm twoKeyDoc [("b", Value.str "1"), ("a", Value.str "2")] [] rfl
    [("a", Value.str "2"), ("b", Value.str "1")]
    (List.mem_permutations.mpr (List.Perm.swap _ _ _))

/-- C10: for a decoded library whose `Tracks` entry extracts cleanly and
whose `Playlists` value is an `Array` of fewer than 5 dicts, the
unguarded slice `rawPlaylists.Dicts[5:]` panics with a slice-bounds
runtime error, aborting the run instead of completing with an empty
playlist list. -/
theorem C10_slice_panic (kvs td : List (String × Value)) (trks : List (String × Track))
    (pls : List (List (String × Value)))
    (h1 : mapLookup "Tracks" kvs = some (Value.dict td))
    (h2 : extractTracks td = Except.ok trks)
    (h3 : mapLookup "Playlists" kvs = some (Value.arr pls))
    (h4 : pls.length < 5) :
    extractLib kvs = Except.error "runtime error: slice bounds out of range" := by
  simp [extractLib, h1, h2, h3, assertDict, assertArray, goSliceFrom, Nat.not_le.mpr h4,
    Bind.bind, Except.bind]

/-- C10 witness: a library with an empty `Tracks` dict and an empty
`Playlists` array panics on the slice. -/
theorem C10_witness :
    extractLib [("Tracks", Value.dict []), ("Playlists", Value.arr [])] =
      Except.error "runtime error: slice bounds out of range" :=
  C10_slice_panic _ [] [] [] rfl rfl rfl (by decide)

/-- Helper: the tokens remaining after a successful `decodeText` are
among the tokens it was given. -/
theorem decodeText_subset (endName : String) :
    ∀ (ts : List Token) (depth : Nat) (acc s : String) (ts' : List Token),
      decodeText endName depth acc ts = Except.ok (s, ts') → ts' ⊆ ts := by
  intro ts
  induction ts with
  | nil => intro depth acc s ts' h; simp [decodeText] at h
  | cons t rest ih =>
      intro depth acc s ts' h
      cases t with
      | charData cs =>
          simp only [decodeText] at h
          split at h
          · exact List.subset_cons_of_subset _ (ih _ _ _ _ h)
          · exact List.subset_cons_of_subset _ (ih _ _ _ _ h)
      | startTag n =>
          simp only [decodeText] at h
          exact List.subset_cons_of_subset _ (ih _ _ _ _ h)
      | endTag n =>
          cases depth with
          | zero =>
              simp only [decodeText] at h
              split at h
              · cases h
                exact List.subset_cons_of_subset _ (List.Subset.refl _)
              · cases h
          | succ d =>
              simp only [decodeText] at h
              exact List.subset_cons_of_subset _ (ih _ _ _ _ h)

/-- Helper: the tokens remaining after a successful `skipTokens` are
among the tokens it was given. -/
theorem skipTokens_subset :
    ∀ (ts : List Token) (depth : Nat) (ts' : List Token),
      skipTokens depth ts = Except.ok ts' → ts' ⊆ ts := by
  intro ts
  induction ts with
  | nil => intro depth ts' h; simp [skipTokens] at h
  | cons t rest ih =>
      intro depth ts' h
      cases t with
      | charData cs =>
          simp only [skipTokens] at h
          exact List.subset_cons_of_subset _ (ih _ _ h)
      | startTag n =>
          simp only [skipTokens] at h
          exact List.subset_cons_of_subset _ (ih _ _ h)
      | endTag n =>
          cases depth with
          | zero =>
              simp only [skipTokens] at h
              cases h
              exact List.subset_cons_of_subset _ (List.Subset.refl _)
          | succ d =>
              simp only [skipTokens] at h
              exact List.subset_cons_of_subset _ (ih _ _ h)

/-- Helper: the tokens remaining after a successful run of either
decoder loop are among the tokens it was given. -/
theorem decodeLoops_subset :
    ∀ fuel : Nat,
      (∀ startN key kvs ts r ts',
        decodeDictLoop startN key kvs fuel ts = Except.ok (r, ts') → ts' ⊆ ts) ∧
      (∀ acc ts r ts',
        decodeArrayLoop acc fuel ts = Except.ok (r, ts') → ts' ⊆ ts) := by
  intro fuel
  induction fuel with
  | zero =>
      constructor
      · intro startN key kvs ts r ts' h
        cases ts with
        | nil => simp [decodeDictLoop] at h
        | cons t rest => simp [decodeDictLoop] at h
      · intro acc ts r ts' h
        cases ts with
        | nil => simp [decodeArrayLoop] at h
        | cons t rest => simp [decodeArrayLoop] at h
  | succ f ih =>
      obtain ⟨ihD, ihA⟩ := ih
      constructor
      · intro startN key kvs ts r ts' h
        cases ts with
        | nil => simp [decodeDictLoop] at h
        | cons t rest =>
            cases t with
            | charData s =>
                simp only [decodeDictLoop] at h
                exact List.subset_cons_of_subset _ (ihD _ _ _ _ _ _ h)
            | endTag n =>
                simp only [decodeDictLoop] at h
                split at h
                · cases h
                  exact List.subset_cons_of_subset _ (List.Subset.refl _)
                · exact List.subset_cons_of_subset _ (ihD _ _ _ _ _ _ h)
            | startTag n =>
                simp only [decodeDictLoop] at h
                split at h
                · split at h
                  · cases h
                  · rename_i k ts1 hdt
                    exact List.subset_cons_of_subset _
                      ((ihD _ _ _ _ _ _ h).trans (decodeText_subset _ _ _ _ _ _ hdt))
                · split at h
                  · split at h
                    · cases h
                    · rename_i s ts1 hdt
                      split at h
                      · cases h
                      · rename_i v hi
                        exact List.subset_cons_of_subset _
                          ((ihD _ _ _ _ _ _ h).trans (decodeText_subset _ _ _ _ _ _ hdt))
                  · split at h
                    · split at h
                      · cases h
                      · rename_i s ts1 hdt
                        exact List.subset_cons_of_subset _
                          ((ihD _ _ _ _ _ _ h).trans (decodeText_subset _ _ _ _ _ _ hdt))
                    · split at h
                      · split at h
                        · cases h
                        · rename_i dv ts1 hdd
                          exact List.subset_cons_of_subset _
                            ((ihD _ _ _ _ _ _ h).trans (ihD _ _ _ _ _ _ hdd))
                      · split at h
                        · split at h
                          · cases h
                          · rename_i av ts1 hda
                            exact List.subset_cons_of_subset _
                              ((ihD _ _ _ _ _ _ h).trans (ihA _ _ _ _ hda))
                        · exact List.subset_cons_of_subset _ (ihD _ _ _ _ _ _ h)
      · intro acc ts r ts' h
        cases ts with
        | nil => simp [decodeArrayLoop] at h
        | cons t rest =>
            cases t with
            | charData s =>
                simp only [decodeArrayLoop] at h
                exact List.subset_cons_of_subset _ (ihA _ _ _ _ h)
            | endTag n =>
                simp only [decodeArrayLoop] at h
                split at h
                · cases h
                  exact List.subset_cons_of_subset _ (List.Subset.refl _)
                · cases h
            | startTag n =>
                simp only [decodeArrayLoop] at h
                split at h
                · split at h
                  · cases h
                  · rename_i dv ts1 hdd
                    exact List.subset_cons_of_subset _
                      ((ihA _ _ _ _ h).trans (ihD _ _ _ _ _ _ hdd))
                · split at h
                  · cases h
                  · rename_i ts1 hsk
                    exact List.subset_cons_of_subset _
                      ((ihA _ _ _ _ h).trans (skipTokens_subset _ _ _ hsk))

/-- Helper: if no end tag named like the dict's start tag occurs in the
token stream — so the stream certainly ends before the matching end tag
is seen — the dict loop can only return an error, for every fuel. -/
theorem decodeDictLoop_error_of_no_end :
    ∀ (fuel : Nat) (startN key : String) (kvs : List (String × Value)) (ts : List Token),
      Token.endTag startN ∉ ts →
      ∃ e, decodeDictLoop startN key kvs fuel ts = Except.error e := by
  intro fuel
  induction fuel with
  | zero =>
      intro startN key kvs ts h
      cases ts with
      | nil => exact ⟨DErr.truncated, rfl⟩
      | cons t rest => exact ⟨DErr.outOfFuel, rfl⟩
  | succ f ih =>
      intro startN key kvs ts h
      cases ts with
      | nil => exact ⟨DErr.truncated, rfl⟩
      | cons t rest =>
          have hrest : Token.endTag startN ∉ rest := fun hx => h (List.mem_cons_of_mem _ hx)
          cases t with
          | charData s =>
              obtain ⟨e, he⟩ := ih startN key kvs rest hrest
              exact ⟨e, by simp only [decodeDictLoop]; exact he⟩
          | endTag n =>
              have hne : ¬ n = startN := fun hxx => h (by rw [hxx]; exact List.mem_cons_self _ _)
              obtain ⟨e, he⟩ := ih startN key kvs rest hrest
              exact ⟨e, by simp only [decodeDictLoop, if_neg hne]; exact he⟩
          | startTag n =>
              simp only [decodeDictLoop]
              split
              · cases hdt : decodeText "key" 0 "" rest with
                | error e => exact ⟨e, by simp only [hdt]⟩
                | ok p =>
                    obtain ⟨k, ts1⟩ := p
                    have hts1 : Token.endTag startN ∉ ts1 :=
                      fun hx => hrest (decodeText_subset _ _ _ _ _ _ hdt hx)
                    obtain ⟨e, he⟩ := ih startN k kvs ts1 hts1
                    exact ⟨e, by simp only [hdt]; exact he⟩
              · split
                · cases hdt : decodeText "integer" 0 "" rest with
                  | error e => exact ⟨e, by simp only [hdt]⟩
                  | ok p =>
                      obtain ⟨s, ts1⟩ := p
                      cases hi : s.toInt? with
                      | none => exact ⟨DErr.badInt, by simp only [hdt, hi]⟩
                      | some v =>
                          have hts1 : Token.endTag startN ∉ ts1 :=
                            fun hx => hrest (decodeText_subset _ _ _ _ _ _ hdt hx)
                          obtain ⟨e, he⟩ :=
                            ih startN key (mapInsert key (Value.int v) kvs) ts1 hts1
                          exact ⟨e, by simp only [hdt, hi]; exact he⟩
                · split
                  · cases hdt : decodeText "string" 0 "" rest with
                    | error e => exact ⟨e, by simp only [hdt]⟩
                    | ok p =>
                        obtain ⟨s, ts1⟩ := p
                        have hts1 : Token.endTag startN ∉ ts1 :=
                          fun hx => hrest (decodeText_subset _ _ _ _ _ _ hdt hx)
                        obtain ⟨e, he⟩ :=
                          ih startN key (mapInsert key (Value.str s) kvs) ts1 hts1
                        exact ⟨e, by simp only [hdt]; exact he⟩
                  · split
                    · cases hdd : decodeDictLoop "dict" "" [] f rest with
                      | error e => exact ⟨e, by simp only [hdd]⟩
                      | ok p =>
                          obtain ⟨dv, ts1⟩ := p
                          have hts1 : Token.endTag startN ∉ ts1 :=
                            fun hx => hrest ((decodeLoops_subset f).1 _ _ _ _ _ _ hdd hx)
                          obtain ⟨e, he⟩ :=
                            ih startN key (mapInsert key (Value.dict dv) kvs) ts1 hts1
                          exact ⟨e, by simp only [hdd]; exact he⟩
                    · split
                      · cases hda : decodeArrayLoop [] f rest with
                        | error e => exact ⟨e, by simp only [hda]⟩
                        | ok p =>
                            obtain ⟨av, ts1⟩ := p
                            have hts1 : Token.endTag startN ∉ ts1 :=
                              fun hx => hrest ((decodeLoops_subset f).2 _ _ _ _ hda hx)
                            obtain ⟨e, he⟩ :=
                              ih startN key (mapInsert key (Value.arr av) kvs) ts1 hts1
                            exact ⟨e, by simp only [hda]; exact he⟩
                      · exact ih startN key kvs rest hrest

/-- C7: for a token stream in which the end tag matching the dict's
opening tag never occurs — the stream ends before it is seen — dict
decoding returns an error, and the error propagates to the caller:
`main` aborts the decode and no partial `Dict` is delivered as a
successful result. -/
theorem C7_truncated (ts : List Token) (h : Token.endTag "dict" ∉ ts) :
    (∃ e, decodeDictTop ts = Except.error e) ∧
    runFromTokens ts = Except.error "Failed to parse iTunes library file" := by
  obtain ⟨e, he⟩ := decodeDictLoop_error_of_no_end (ts.length + 1) "dict" "" [] ts h
  have he' : decodeDictTop ts = Except.error e := he
  exact ⟨⟨e, he'⟩, by simp [runFromTokens, he']⟩

/-- C7 witness: a truncated stream holding a lone `key` start tag. -/
theorem C7_witness :
    (∃ e, decodeDictTop [Token.startTag "key"] = Except.error e) ∧
    runFromTokens [Token.startTag "key"] =
      Except.error "Failed to parse iTunes library file" :=
  C7_truncated [Token.startTag "key"] (by decide)

end ITunes
